import Mathlib

/-!
Verification of the chunked file-upload engine of `src/services/api.ts`
(`ApiService`): chunk planning, transfer-mode selection, retry policy,
batched dispatch, progress reporting and error classification.

Machine integers of the source are modelled as `Nat`; the source computes
progress with JS floating point, modelled here by exact rational rounding
(`jsRound100`), which agrees with the source at every value these theorems
evaluate it at (exact quotients such as `n/n`).
-/

namespace ApiService

/-- Threshold for using chunked upload (50MB), `CHUNKED_UPLOAD_THRESHOLD`. -/
def CHUNKED_UPLOAD_THRESHOLD : Nat := 50 * 1024 * 1024

/-- Chunk size (5MB per chunk), `CHUNK_SIZE`. -/
def CHUNK_SIZE : Nat := 5 * 1024 * 1024

/-- `Math.ceil(file.size / this.CHUNK_SIZE)` from `uploadFileChunked`. -/
def totalChunks (size : Nat) : Nat := (size + CHUNK_SIZE - 1) / CHUNK_SIZE

/-- `const start = chunkIndex * this.CHUNK_SIZE` from `uploadChunk`. -/
def chunkStart (i : Nat) : Nat := i * CHUNK_SIZE

/-- `const end = Math.min(start + this.CHUNK_SIZE, file.size)` from `uploadChunk`;
`file.slice(start, end)` reads the byte range `[start, end)`. -/
def chunkEnd (size i : Nat) : Nat := min (chunkStart i + CHUNK_SIZE) size

/-- The transfer mode decided once by `uploadFile`. -/
inductive TransferMode
  | direct
  | chunked
deriving DecidableEq

/-- `if (file.size > this.CHUNKED_UPLOAD_THRESHOLD) return this.uploadFileChunked(...)`
from `uploadFile`: the mode selected for a payload of the given size. -/
def uploadFileMode (size : Nat) : TransferMode :=
  if CHUNKED_UPLOAD_THRESHOLD < size then TransferMode.chunked else TransferMode.direct

/-- The loop `for i in 0..totalChunks-1, if (!uploadedChunks.includes(i))
chunksToUpload.push(i)` from `uploadFileChunked`. -/
def chunksToUpload (total : Nat) (uploadedChunks : List Nat) : List Nat :=
  (List.range total).filter (fun i => !uploadedChunks.contains i)

/-- One endpoint contact made by `uploadFile` / `uploadFileChunked`. -/
inductive ApiCall
  | initChunked
  | chunkUpload (i : Nat)
  | completeChunked
  | directUpload
deriving DecidableEq

/-- The endpoints a successful `uploadFile` call contacts, in program order:
the direct path is one request to `/uploads/`; the chunked path is
`/uploads/chunked/init`, one `/uploads/chunked/chunk` per not-yet-stored
index, then `/uploads/chunked/complete`.  `uploadedChunks` is the
`uploaded_chunks` list of the init response. -/
def uploadFileCalls (size : Nat) (uploadedChunks : List Nat) : List ApiCall :=
  if CHUNKED_UPLOAD_THRESHOLD < size then
    ApiCall.initChunked ::
      ((chunksToUpload (totalChunks size) uploadedChunks).map ApiCall.chunkUpload
        ++ [ApiCall.completeChunked])
  else [ApiCall.directUpload]

/-- `Math.round((n / t) * 100)` of the source, over exact rationals:
for `x ≥ 0`, `Math.round x = ⌊x + 1/2⌋`, and
`⌊n/t*100 + 1/2⌋ = (200*n + t) / (2*t)` in natural division. -/
def jsRound100 (n t : Nat) : Nat := (200 * n + t) / (2 * t)

/-- One call to the caller's progress sink during a chunked upload. -/
inductive ProgressEvent
  | chunkConfirm (confirmedCount : Nat) (value : Nat)
  | completeDone (value : Nat)
deriving DecidableEq

/-- The percentage a progress event carries. -/
def progressValue : ProgressEvent → Nat
  | ProgressEvent.chunkConfirm _ p => p
  | ProgressEvent.completeDone p => p

/-- The progress events of a successful chunked upload, in delivery order.
The shared counter `uploadedCount` starts at `uploadedChunks.length`
(`initCount`); each chunk confirmation runs `uploadedCount++` and then
reports `Math.round((uploadedCount / totalChunks) * 100)` — JS is
single-threaded, so whichever chunk the k-th confirmation belongs to, it
reports counter value `initCount + k`; after `/uploads/chunked/complete`
succeeds the code calls `onProgress(100)`.  `m` is the number of chunks
dispatched (and confirmed) in this call. -/
def uploadTrace (total initCount m : Nat) : List ProgressEvent :=
  ((List.range m).map fun k =>
    ProgressEvent.chunkConfirm (initCount + k + 1) (jsRound100 (initCount + k + 1) total))
    ++ [ProgressEvent.completeDone 100]

/-- The list of percentages a trace delivers to the sink. -/
def progressValues (l : List ProgressEvent) : List Nat := l.map progressValue

theorem jsRound100_mono (t : Nat) {a b : Nat} (h : a ≤ b) :
    jsRound100 a t ≤ jsRound100 b t :=
  Nat.div_le_div_right (by omega)

theorem jsRound100_le_100 {n t : Nat} (h : n ≤ t) : jsRound100 n t ≤ 100 := by
  unfold jsRound100
  rcases Nat.eq_zero_or_pos t with ht | ht
  · subst ht; simp
  · have h2 : 0 < 2 * t := by omega
    have hlt : 200 * n + t < 101 * (2 * t) := by omega
    have := (Nat.div_lt_iff_lt_mul h2).mpr hlt
    omega

theorem jsRound100_self {t : Nat} (ht : 0 < t) : jsRound100 t t = 100 := by
  unfold jsRound100
  have h1 : 200 * t + t = t * 201 := by ring
  have h2 : 2 * t = t * 2 := by ring
  rw [h1, h2, Nat.mul_div_mul_left _ _ ht]

theorem sorted_uploadTrace {total initCount m : Nat} (h : initCount + m ≤ total) :
    List.Sorted (· ≤ ·) (progressValues (uploadTrace total initCount m)) := by
  unfold List.Sorted progressValues uploadTrace
  rw [List.map_append, List.map_map, List.pairwise_append]
  refine ⟨?_, by simp, ?_⟩
  · exact (List.pairwise_lt_range m).map _
      (fun a b hab => jsRound100_mono total (by omega))
  · intro a ha b hb
    simp only [List.mem_map, List.mem_range, Function.comp] at ha
    obtain ⟨k, hk, rfl⟩ := ha
    simp only [List.mem_map, List.mem_singleton] at hb
    rcases hb with ⟨e, he, rfl⟩
    subst he
    simpa [progressValue] using jsRound100_le_100 (show initCount + k + 1 ≤ total by omega)

/-- C1: for every payload size above the 50 MiB threshold, the chunked plan
has `totalChunks = ceil(size / CHUNK_SIZE)` (characterised by
`CHUNK_SIZE*(total-1) < size ≤ CHUNK_SIZE*total`), chunk `i` reads exactly
`[i*CHUNK_SIZE, min((i+1)*CHUNK_SIZE, size))`, consecutive chunks are
contiguous, every chunk is nonempty and inside `[0, size)`, and every byte
of `[0, size)` lies in exactly one chunk. -/
theorem chunk_partition_covers (size : Nat) (hs : CHUNKED_UPLOAD_THRESHOLD < size) :
    (CHUNK_SIZE * (totalChunks size - 1) < size ∧ size ≤ CHUNK_SIZE * totalChunks size) ∧
    (∀ i, i < totalChunks size → chunkStart i < chunkEnd size i ∧ chunkEnd size i ≤ size) ∧
    (∀ i, i + 1 < totalChunks size → chunkEnd size i = chunkStart (i + 1)) ∧
    (∀ b, b < size → ∃ i, (i < totalChunks size ∧ chunkStart i ≤ b ∧ b < chunkEnd size i) ∧
      ∀ j, j < totalChunks size → chunkStart j ≤ b → b < chunkEnd size j → j = i) := by
  simp only [totalChunks, chunkStart, chunkEnd, CHUNK_SIZE, CHUNKED_UPLOAD_THRESHOLD] at *
  refine ⟨by omega, fun i hi => by omega, fun i hi => by omega, fun b hb => ?_⟩
  refine ⟨b / (5 * 1024 * 1024), by omega, fun j h1 h2 h3 => by omega⟩

/-- Witness for C1 at a concrete size just above the threshold. -/
theorem chunk_partition_covers_witness :
    CHUNKED_UPLOAD_THRESHOLD < 52428801 ∧
    ((CHUNK_SIZE * (totalChunks 52428801 - 1) < 52428801 ∧
        52428801 ≤ CHUNK_SIZE * totalChunks 52428801) ∧
      (∀ i, i < totalChunks 52428801 →
        chunkStart i < chunkEnd 52428801 i ∧ chunkEnd 52428801 i ≤ 52428801) ∧
      (∀ i, i + 1 < totalChunks 52428801 → chunkEnd 52428801 i = chunkStart (i + 1)) ∧
      (∀ b, b < 52428801 → ∃ i,
        (i < totalChunks 52428801 ∧ chunkStart i ≤ b ∧ b < chunkEnd 52428801 i) ∧
        ∀ j, j < totalChunks 52428801 → chunkStart j ≤ b → b < chunkEnd 52428801 j → j = i)) :=
  ⟨by decide, chunk_partition_covers 52428801 (by decide)⟩

/-- C2: `uploadFile` selects the chunked mode iff the payload size is
strictly greater than 50 MiB; at or below the threshold it makes exactly
one request, to the direct endpoint, and contacts no chunked endpoint. -/
theorem uploadFile_mode_threshold (size : Nat) (uploadedChunks : List Nat) :
    (uploadFileMode size = TransferMode.chunked ↔ 50 * 1024 * 1024 < size) ∧
    (size ≤ 50 * 1024 * 1024 →
      uploadFileCalls size uploadedChunks = [ApiCall.directUpload]) := by
  constructor
  · simp only [uploadFileMode, CHUNKED_UPLOAD_THRESHOLD]
    split <;> simp_all
  · intro h
    simp only [uploadFileCalls, CHUNKED_UPLOAD_THRESHOLD]
    rw [if_neg (by omega)]

/-- Witness for C2 at size 0 and at the exact threshold. -/
theorem uploadFile_mode_threshold_witness :
    ((uploadFileMode 0 = TransferMode.chunked ↔ 50 * 1024 * 1024 < 0) ∧
      (0 ≤ 50 * 1024 * 1024 → uploadFileCalls 0 [] = [ApiCall.directUpload])) ∧
    uploadFileCalls 0 [] = [ApiCall.directUpload] :=
  ⟨uploadFile_mode_threshold 0 [],
    (uploadFile_mode_threshold 0 []).2 (by decide)⟩

theorem contains_eq_false_iff (l : List Nat) (i : Nat) :
    l.contains i = false ↔ i ∉ l := by
  have h : l.contains i = List.elem i l := rfl
  rw [h]
  constructor
  · intro hf hmem
    rw [List.elem_iff.mpr hmem] at hf
    cases hf
  · intro hn
    cases hb : List.elem i l with
    | false => rfl
    | true => exact absurd (List.elem_iff.mp hb) hn

theorem not_contains_iff (l : List Nat) (i : Nat) : (!l.contains i) = true ↔ i ∉ l := by
  rw [Bool.not_eq_true', contains_eq_false_iff]

theorem length_chunksToUpload (total : Nat) (stored : List Nat)
    (hnd : stored.Nodup) (hlt : ∀ i ∈ stored, i < total) :
    stored.length + (chunksToUpload total stored).length = total := by
  classical
  have hnd2 : (chunksToUpload total stored).Nodup :=
    (List.nodup_range total).filter _
  have hcard : (chunksToUpload total stored).toFinset.card =
      (chunksToUpload total stored).length :=
    List.toFinset_card_of_nodup hnd2
  have hset : (chunksToUpload total stored).toFinset =
      Finset.range total \ stored.toFinset := by
    ext i
    simp only [chunksToUpload, List.mem_toFinset, List.mem_filter, List.mem_range,
      Finset.mem_sdiff, Finset.mem_range, Bool.not_eq_true', contains_eq_false_iff]
  have hsub : stored.toFinset ⊆ Finset.range total := by
    intro i hi
    exact Finset.mem_range.mpr (hlt i (List.mem_toFinset.mp hi))
  have hsd := Finset.card_sdiff hsub
  rw [hset, hsd, Finset.card_range, List.toFinset_card_of_nodup hnd] at hcard
  have hle : stored.length ≤ total := by
    have := Finset.card_le_card hsub
    rwa [Finset.card_range, List.toFinset_card_of_nodup hnd] at this
  omega

/-- C7: within one chunked upload call, the progress percentages delivered
to the sink form a non-decreasing sequence, for every payload size and
every well-formed `uploaded_chunks` set returned by init (duplicate-free
indices below `totalChunks`): the k-th confirmation reports the shared
counter value `initCount + k` regardless of which chunk confirmed, so the
delivered list does not depend on the confirmation order. -/
theorem progress_monotone (size : Nat) (stored : List Nat)
    (hnd : stored.Nodup) (hlt : ∀ i ∈ stored, i < totalChunks size) :
    List.Sorted (· ≤ ·) (progressValues (uploadTrace (totalChunks size)
      stored.length (chunksToUpload (totalChunks size) stored).length)) :=
  sorted_uploadTrace (le_of_eq (length_chunksToUpload _ _ hnd hlt))

/-- Witness for C7: 11 chunks, 2 already stored. -/
theorem progress_monotone_witness :
    ([3, 7] : List Nat).Nodup ∧ (∀ i ∈ ([3, 7] : List Nat), i < totalChunks 52428801) ∧
    List.Sorted (· ≤ ·) (progressValues (uploadTrace (totalChunks 52428801)
      ([3, 7] : List Nat).length (chunksToUpload (totalChunks 52428801) [3, 7]).length)) :=
  ⟨by decide, by decide, progress_monotone 52428801 [3, 7] (by decide) (by decide)⟩

/-- C3 counterexample: for a 52 428 801-byte file (11 chunks, none stored),
a value of 100 is delivered to the sink strictly before the completion
event — the confirmation of the 11th chunk reports
`Math.round((11/11)*100) = 100` while `/uploads/chunked/complete` has not
yet been requested, refuting \"reaches exactly 100 only at
CompletionFinalizer success, never earlier\". -/
theorem progress_100_before_complete :
    ¬ (∀ p ∈ progressValues ((uploadTrace (totalChunks 52428801) 0
        (chunksToUpload (totalChunks 52428801) []).length).dropLast), p < 100) := by
  decide

/-- C3 (amended): every value delivered to the sink is at most 100; the
trace ends with the completion event reporting 100; but 100 is already
reported at the confirmation of the final chunk (shared counter =
`totalChunks`), before the completion request — not only at completion
success. -/
theorem progress_100_at_final_chunk (total initCount m : Nat)
    (h : initCount + m = total) (hm : 0 < m) :
    (∀ p ∈ progressValues (uploadTrace total initCount m), p ≤ 100) ∧
    (uploadTrace total initCount m).getLast? = some (ProgressEvent.completeDone 100) ∧
    ProgressEvent.chunkConfirm total 100 ∈ (uploadTrace total initCount m).dropLast := by
  refine ⟨?_, ?_, ?_⟩
  · intro p hp
    simp only [progressValues, uploadTrace, List.map_append, List.mem_append,
      List.mem_map, List.mem_range, List.mem_singleton] at hp
    rcases hp with ⟨e, ⟨k, hk, rfl⟩, rfl⟩ | ⟨e, he, rfl⟩
    · simpa [progressValue] using jsRound100_le_100 (show initCount + k + 1 ≤ total by omega)
    · subst he; simp [progressValue]
  · exact List.getLast?_concat _
  · rw [uploadTrace, List.dropLast_concat]
    refine List.mem_map.mpr ⟨m - 1, List.mem_range.mpr (by omega), ?_⟩
    have h1 : initCount + (m - 1) + 1 = total := by omega
    rw [h1, jsRound100_self (by omega)]

/-- Witness for the amended C3: 11 chunks, none stored. -/
theorem progress_100_at_final_chunk_witness :
    (0 + 11 = totalChunks 52428801 ∧ 0 < 11) ∧
    ((∀ p ∈ progressValues (uploadTrace (totalChunks 52428801) 0 11), p ≤ 100) ∧
      (uploadTrace (totalChunks 52428801) 0 11).getLast? =
        some (ProgressEvent.completeDone 100) ∧
      ProgressEvent.chunkConfirm (totalChunks 52428801) 100 ∈
        (uploadTrace (totalChunks 52428801) 0 11).dropLast) :=
  ⟨⟨by decide, by decide⟩,
    progress_100_at_final_chunk (totalChunks 52428801) 0 11 (by decide) (by decide)⟩

/-- The payload carried by one POST to `/uploads/chunked/chunk`: the chunk
index and the byte range of `file.slice(start, end)`.  `uploadChunk` builds
this FormData once, before the `try`, so a retry re-sends the identical
payload. -/
structure ChunkRange where
  index : Nat
  first : Nat
  stop : Nat
deriving DecidableEq

/-- The payload `uploadChunk` sends for chunk `i` of a file of the given
size. -/
def chunkRange (size i : Nat) : ChunkRange :=
  { index := i, first := chunkStart i, stop := chunkEnd size i }

/-- One run of the inner `uploadChunk` closure of `uploadFileChunked`.
`firstOk` is the outcome of the first POST, `retryOk` of the retry issued
in the `catch`; `count` is the shared `uploadedCount` before the run.
Returns the requests actually sent and, on success, the updated counter
together with the percentage reported to the sink; `none` means the
second failure propagated out of the closure. -/
def uploadChunk (size total : Nat) (firstOk retryOk : Bool) (i count : Nat) :
    List ChunkRange × Option (Nat × Nat) :=
  if firstOk then
    ([chunkRange size i], some (count + 1, jsRound100 (count + 1) total))
  else if retryOk then
    ([chunkRange size i, chunkRange size i], some (count + 1, jsRound100 (count + 1) total))
  else
    ([chunkRange size i, chunkRange size i], none)

/-- Outcome of the chunk-transfer phase: `await Promise.all` rejects as
soon as one mapped `uploadChunk` promise rejects, the batch loop's `await`
rethrows, the outer `catch` rethrows, and `/uploads/chunked/complete` is
reached only when no dispatched chunk failed both attempts.  The error
carries the first doubly-failing chunk index in dispatch order. -/
def chunkPhaseResult (size : Nat) (stored : List Nat) (firstOk retryOk : Nat → Bool) :
    Except Nat Unit :=
  ((chunksToUpload (totalChunks size) stored).find?
    (fun i => !firstOk i && !retryOk i)).elim (Except.ok ()) Except.error

/-- C4: a chunk run sends at most two requests; every request it sends
carries the same index and byte range; a failed first attempt triggers
exactly one retry (two requests, never a third); a chunk whose retry also
fails produces no confirmation, and a chunked upload one of whose
dispatched chunks fails twice aborts with that error instead of reaching
completion. -/
theorem uploadChunk_retry_once (size total : Nat) (firstOk retryOk : Bool)
    (i count : Nat) (stored : List Nat) (f r : Nat → Bool) :
    (uploadChunk size total firstOk retryOk i count).1.length ≤ 2 ∧
    (∀ a ∈ (uploadChunk size total firstOk retryOk i count).1, a = chunkRange size i) ∧
    (firstOk = false → (uploadChunk size total firstOk retryOk i count).1.length = 2) ∧
    (firstOk = false → retryOk = false →
      (uploadChunk size total firstOk retryOk i count).2 = none) ∧
    ((∃ j ∈ chunksToUpload (totalChunks size) stored, f j = false ∧ r j = false) →
      ∃ j, chunkPhaseResult size stored f r = Except.error j) := by
  refine ⟨?_, ?_, ?_, ?_, ?_⟩
  · cases firstOk <;> cases retryOk <;> simp [uploadChunk]
  · intro a ha
    cases firstOk <;> cases retryOk <;>
      simp only [uploadChunk, Bool.false_eq_true, if_true, if_false] at ha <;>
      rcases List.mem_cons.mp ha with h | h <;>
      first
        | exact h
        | exact List.eq_of_mem_singleton h
        | exact absurd h (List.not_mem_nil a)
  · intro h; subst h
    cases retryOk <;> simp [uploadChunk]
  · intro h1 h2; subst h1; subst h2
    simp [uploadChunk]
  · rintro ⟨j, hj, hf, hr⟩
    have hne : (chunksToUpload (totalChunks size) stored).find?
        (fun k => !f k && !r k) ≠ none := by
      intro hnone
      exact absurd (by simp [hf, hr]) (List.find?_eq_none.mp hnone j hj)
    rcases Option.ne_none_iff_exists.mp hne with ⟨k, hk⟩
    refine ⟨k, ?_⟩
    unfold chunkPhaseResult
    rw [← hk]
    rfl

/-- Witness for C4: chunk 3 of an 11-chunk upload fails twice. -/
theorem uploadChunk_retry_once_witness :
    (uploadChunk 52428801 11 false false 3 0).1.length = 2 ∧
    (uploadChunk 52428801 11 false false 3 0).2 = none ∧
    ∃ j, chunkPhaseResult 52428801 [] (fun _ => false) (fun _ => false) =
      Except.error j :=
  ⟨(uploadChunk_retry_once 52428801 11 false false 3 0 [] (fun _ => false)
      (fun _ => false)).2.2.1 rfl,
    (uploadChunk_retry_once 52428801 11 false false 3 0 [] (fun _ => false)
      (fun _ => false)).2.2.2.1 rfl rfl,
    (uploadChunk_retry_once 52428801 11 false false 3 0 [] (fun _ => false)
      (fun _ => false)).2.2.2.2 ⟨0, by decide, rfl, rfl⟩⟩

/-- C8: a confirmed chunk bumps the shared counter by exactly one and
reports `Math.round(((count+1)/totalChunks)*100)`; a chunk that fails once
and succeeds on retry produces exactly the outcome of a chunk that
succeeded immediately (one confirmation, same counter, same percentage);
and the k-th confirmation of a run reports
`jsRound100 (initCount + k + 1) total`, where `initCount` counts the
chunks already stored at session-open time. -/
theorem progress_formula (size total : Nat) (retryOk : Bool) (i count : Nat)
    (initCount m k : Nat) (hk : k < m) :
    (uploadChunk size total false true i count).2 =
      (uploadChunk size total true retryOk i count).2 ∧
    (uploadChunk size total true retryOk i count).2 =
      some (count + 1, jsRound100 (count + 1) total) ∧
    (uploadTrace total initCount m)[k]? =
      some (ProgressEvent.chunkConfirm (initCount + k + 1)
        (jsRound100 (initCount + k + 1) total)) := by
  refine ⟨by simp [uploadChunk], by simp [uploadChunk], ?_⟩
  have hlen : k < ((List.range m).map fun j =>
      ProgressEvent.chunkConfirm (initCount + j + 1)
        (jsRound100 (initCount + j + 1) total)).length := by
    simpa using hk
  rw [uploadTrace, List.getElem?_append, if_pos hlen, List.getElem?_map,
    List.getElem?_range hk]
  rfl

/-- Witness for C8: chunk 7 of 20, counter at 7, retry after one failure. -/
theorem progress_formula_witness :
    (7 : Nat) < 20 ∧
    ((uploadChunk 104857600 20 false true 7 7).2 =
        (uploadChunk 104857600 20 true true 7 7).2 ∧
      (uploadChunk 104857600 20 true true 7 7).2 =
        some (7 + 1, jsRound100 (7 + 1) 20) ∧
      (uploadTrace 20 0 20)[7]? =
        some (ProgressEvent.chunkConfirm (0 + 7 + 1) (jsRound100 (0 + 7 + 1) 20))) :=
  ⟨by decide, progress_formula 104857600 20 true 7 7 0 20 7 (by decide)⟩

/-- `const maxConcurrent = 3` from `uploadFileChunked`. -/
def maxConcurrent : Nat := 3

/-- The batch loop `for (i = 0; i < chunksToUpload.length; i += maxConcurrent)
{ const batch = chunksToUpload.slice(i, i + maxConcurrent);
await Promise.all(batch.map(uploadChunk)) }`: the consecutive slices the
loop dispatches.  Each batch is awaited in full before the next slice is
taken, so the requests in flight at any instant all belong to a single
batch. -/
def toBatches (l : List Nat) : List (List Nat) :=
  if h : l = [] then []
  else l.take maxConcurrent :: toBatches (l.drop maxConcurrent)
termination_by l.length
decreasing_by
  have hl : 0 < l.length := List.length_pos.mpr h
  simp only [List.length_drop, maxConcurrent]
  omega

theorem toBatches_length_le (l : List Nat) :
    ∀ b ∈ toBatches l, b.length ≤ maxConcurrent := by
  generalize hn : l.length = n
  induction n using Nat.strong_induction_on generalizing l with
  | _ n ih =>
    rw [toBatches]
    split
    · simp
    · next h =>
      intro b hb
      rcases List.mem_cons.mp hb with h1 | h2
      · subst h1
        exact List.length_take_le _ _
      · have hl : 0 < l.length := List.length_pos.mpr h
        have hlt : (l.drop maxConcurrent).length < n := by
          simp only [List.length_drop, maxConcurrent]
          omega
        exact ih _ (by omega) _ rfl b h2

theorem toBatches_join (l : List Nat) : (toBatches l).flatten = l := by
  generalize hn : l.length = n
  induction n using Nat.strong_induction_on generalizing l with
  | _ n ih =>
    rw [toBatches]
    split
    · simp_all
    · next h =>
      have hl : 0 < l.length := List.length_pos.mpr h
      have hlt : (l.drop maxConcurrent).length < n := by
        simp only [List.length_drop, maxConcurrent]
        omega
      rw [List.flatten_cons, ih _ (by omega) _ rfl, List.take_append_drop]

/-- C5: the dispatch schedule of a chunked upload splits the remaining
chunk indices into consecutive batches of at most `maxConcurrent = 3`
requests, dispatched batch by batch with a full `await Promise.all`
between batches; hence, for every payload size, every init response and
every completion order, the chunk requests in flight at any instant are
a subset of one batch and number at most 3.  The batches together
dispatch exactly the planned index list. -/
theorem concurrent_chunks_bounded (size : Nat) (stored : List Nat) :
    maxConcurrent = 3 ∧
    (∀ b ∈ toBatches (chunksToUpload (totalChunks size) stored), b.length ≤ 3) ∧
    (toBatches (chunksToUpload (totalChunks size) stored)).flatten =
      chunksToUpload (totalChunks size) stored :=
  ⟨rfl, fun b hb => toBatches_length_le _ b hb, toBatches_join _⟩

/-- Witness for C5: 11 chunks, 2 already stored, 9 to dispatch. -/
theorem concurrent_chunks_bounded_witness :
    maxConcurrent = 3 ∧
    (∀ b ∈ toBatches (chunksToUpload (totalChunks 52428801) [3, 7]), b.length ≤ 3) ∧
    (toBatches (chunksToUpload (totalChunks 52428801) [3, 7])).flatten =
      chunksToUpload (totalChunks 52428801) [3, 7] :=
  concurrent_chunks_bounded 52428801 [3, 7]

/-- C6: a chunk-upload request with index `i` appears in the calls of an
upload iff the upload is chunked, `i` is a planned index
(`0 ≤ i < totalChunks`), and the init response did not report `i` as
already stored — in particular no reported-stored index is ever sent. -/
theorem dispatch_skips_stored (size : Nat) (stored : List Nat) (i : Nat) :
    ApiCall.chunkUpload i ∈ uploadFileCalls size stored ↔
      CHUNKED_UPLOAD_THRESHOLD < size ∧ i < totalChunks size ∧ i ∉ stored := by
  unfold uploadFileCalls
  split
  · next hgt =>
    simp only [List.mem_cons, List.mem_append, List.mem_map, List.mem_singleton,
      chunksToUpload, List.mem_filter, List.mem_range]
    constructor
    · rintro (h | ⟨j, ⟨hj1, hj2⟩, hj3⟩ | h) <;> try exact absurd h (by simp)
      cases hj3
      exact ⟨hgt, hj1, (not_contains_iff stored i).mp hj2⟩
    · rintro ⟨-, h1, h2⟩
      exact Or.inr (Or.inl ⟨i, ⟨h1, (not_contains_iff stored i).mpr h2⟩, rfl⟩)
  · next hle =>
    simp only [List.mem_singleton]
    constructor
    · intro h
      exact absurd h (by simp)
    · rintro ⟨hgt, -, -⟩
      exact absurd hgt hle

/-- Witness for C6: 2 of 11 chunks already stored; index 3 is skipped,
index 4 is dispatched. -/
theorem dispatch_skips_stored_witness :
    (ApiCall.chunkUpload 3 ∈ uploadFileCalls 52428801 [3, 7] ↔
      CHUNKED_UPLOAD_THRESHOLD < 52428801 ∧ 3 < totalChunks 52428801 ∧ 3 ∉ [3, 7]) ∧
    ApiCall.chunkUpload 3 ∉ uploadFileCalls 52428801 [3, 7] ∧
    ApiCall.chunkUpload 4 ∈ uploadFileCalls 52428801 [3, 7] :=
  ⟨dispatch_skips_stored 52428801 [3, 7] 3,
    fun h => by
      have := (dispatch_skips_stored 52428801 [3, 7] 3).mp h
      simp at this,
    (dispatch_skips_stored 52428801 [3, 7] 4).mpr ⟨by decide, by decide, by decide⟩⟩

/-- The fields the source attaches to a thrown upload/request `Error`:
`(error as any).status` and `(error as any).requiresAuth`.  The
human-readable message string is not modelled. -/
structure ApiError where
  status : Option Nat
  requiresAuth : Bool
deriving DecidableEq

/-- The error built for a 401 response on either path:
`status = 401`, `requiresAuth = true`. -/
def authRequiredError : ApiError := { status := some 401, requiresAuth := true }

/-- The error built for any other failing HTTP status: carries the status,
no `requiresAuth` field (absent reads as false). -/
def httpFailureError (status : Nat) : ApiError :=
  { status := some status, requiresAuth := false }

/-- The plain `Error` rejected by the XHR `error` (network) listener:
neither `status` nor `requiresAuth` is set. -/
def networkFailureError : ApiError := { status := none, requiresAuth := false }

/-- The client's persistent credential: `localStorage` holding
`access_token`. -/
structure ClientState where
  token : Option String
deriving DecidableEq

/-- `getAuthHeaders`: `Content-Type: application/json` plus, when a token
is stored, `Authorization: Bearer <token>`. -/
def getAuthHeaders (st : ClientState) : List (String × String) :=
  ("Content-Type", "application/json") ::
    (match st.token with
      | some t => [("Authorization", "Bearer " ++ t)]
      | none => [])

/-- The headers of the FormData branch of `request` and of the XHR direct
upload: only the optional `Authorization` header (`if (token)
xhr.setRequestHeader(...)`). -/
def formDataHeaders (st : ClientState) : List (String × String) :=
  match st.token with
  | some t => [("Authorization", "Bearer " ++ t)]
  | none => []

/-- Response handling of `request` for a given HTTP status
(`response.ok` iff `200 ≤ status ≤ 299`): returns the client state after
the handler ran and the error thrown, if any.  On 401 the code runs
`localStorage.removeItem('access_token')` first and throws the
`requiresAuth` error after. -/
def requestStep (st : ClientState) (status : Nat) : ClientState × Option ApiError :=
  if 200 ≤ status ∧ status ≤ 299 then (st, none)
  else if status = 401 then ({ st with token := none }, some authRequiredError)
  else (st, some (httpFailureError status))

/-- The XHR `load` listener of the direct upload path: resolves on 201,
removes the token and rejects with the `requiresAuth` error on 401,
rejects with a plain status error otherwise. -/
def xhrLoadStep (st : ClientState) (status : Nat) : ClientState × Option ApiError :=
  if status = 201 then (st, none)
  else if status = 401 then ({ st with token := none }, some authRequiredError)
  else (st, some (httpFailureError status))

/-- C9: on both the generic `request` path and the XHR direct-upload path,
a response fails with the distinguished re-authentication error (status
401 and `requiresAuth` set) exactly when the HTTP status is 401; every
other failure — any other status, or a network error — carries
`requiresAuth = false` and so is distinct from it. -/
theorem unauthorized_distinguished (st : ClientState) (status : Nat) :
    authRequiredError.status = some 401 ∧ authRequiredError.requiresAuth = true ∧
    ((requestStep st status).2 = some authRequiredError ↔ status = 401) ∧
    ((xhrLoadStep st status).2 = some authRequiredError ↔ status = 401) ∧
    (∀ e, (requestStep st status).2 = some e → status ≠ 401 → e.requiresAuth = false) ∧
    (∀ e, (xhrLoadStep st status).2 = some e → status ≠ 401 → e.requiresAuth = false) ∧
    networkFailureError.requiresAuth = false := by
  refine ⟨rfl, rfl, ?_, ?_, ?_, ?_, rfl⟩
  · unfold requestStep
    split
    · next hok => simp; omega
    · split
      · next h => simp [h]
      · next h => simp [httpFailureError, authRequiredError, h]
  · unfold xhrLoadStep
    split
    · next h => simp; omega
    · split
      · next h => simp [h]
      · next h => simp [httpFailureError, authRequiredError, h]
  · intro e he hne
    by_cases hok : 200 ≤ status ∧ status ≤ 299
    · rw [requestStep, if_pos hok] at he
      cases he
    · rw [requestStep, if_neg hok, if_neg hne] at he
      cases he
      rfl
  · intro e he hne
    by_cases h201 : status = 201
    · rw [xhrLoadStep, if_pos h201] at he
      cases he
    · rw [xhrLoadStep, if_neg h201, if_neg hne] at he
      cases he
      rfl

/-- Witness for C9 at status 401 and status 500, with a stored token. -/
theorem unauthorized_distinguished_witness :
    (authRequiredError.status = some 401 ∧ authRequiredError.requiresAuth = true ∧
      ((requestStep { token := some "tok" } 401).2 = some authRequiredError ↔
        (401 : Nat) = 401) ∧
      ((xhrLoadStep { token := some "tok" } 401).2 = some authRequiredError ↔
        (401 : Nat) = 401) ∧
      (∀ e, (requestStep { token := some "tok" } 401).2 = some e →
        (401 : Nat) ≠ 401 → e.requiresAuth = false) ∧
      (∀ e, (xhrLoadStep { token := some "tok" } 401).2 = some e →
        (401 : Nat) ≠ 401 → e.requiresAuth = false) ∧
      networkFailureError.requiresAuth = false) ∧
    (requestStep { token := some "tok" } 500).2 = some (httpFailureError 500) :=
  ⟨unauthorized_distinguished { token := some "tok" } 401, by decide⟩

/-- C10: a 401 on either path clears the stored token in the state the
handler leaves behind (the removal precedes the throw in program order)
while an error is indeed thrown; and any request made from a state with
no stored token carries no `Authorization` header on any of the three
header-building paths, until a new token is stored. -/
theorem token_cleared_on_401 (st : ClientState) :
    (requestStep st 401).1.token = none ∧ ((requestStep st 401).2).isSome = true ∧
    (xhrLoadStep st 401).1.token = none ∧ ((xhrLoadStep st 401).2).isSome = true ∧
    (∀ s : ClientState, s.token = none →
      "Authorization" ∉ (getAuthHeaders s).map Prod.fst ∧ formDataHeaders s = []) := by
  refine ⟨?_, ?_, ?_, ?_, ?_⟩
  · simp [requestStep]
  · simp [requestStep]
  · simp [xhrLoadStep]
  · simp [xhrLoadStep]
  · intro s hs
    constructor
    · cases s
      cases hs
      simp [getAuthHeaders]
    · cases s
      cases hs
      rfl

/-- Witness for C10 from a state holding a token. -/
theorem token_cleared_on_401_witness :
    (requestStep { token := some "tok" } 401).1.token = none ∧
    ((requestStep { token := some "tok" } 401).2).isSome = true ∧
    (xhrLoadStep { token := some "tok" } 401).1.token = none ∧
    ((xhrLoadStep { token := some "tok" } 401).2).isSome = true ∧
    (∀ s : ClientState, s.token = none →
      "Authorization" ∉ (getAuthHeaders s).map Prod.fst ∧ formDataHeaders s = []) :=
  token_cleared_on_401 { token := some "tok" }

end ApiService
